import Mathlib

/- Verification of the lizard sampling simulation (src/lizard_sample3.py).

   The population generator, the two sampling strategies and the summary
   statistics are modelled as pure functions over lists.  The numpy global
   pseudo-random generator is modelled as an abstract stream of standard
   normal draws indexed by seed and position; pandas DataFrame.sample is
   modelled as an abstract selector that returns the requested number of
   rows from the frame. -/

/-- The four habitats, in the fixed insertion order of the `groups` dict
of get_population. -/
inductive Habitat
  | beach
  | jungle
  | wetlands
  | caves
deriving DecidableEq

/-- Fixed iteration order over habitats: the insertion order of `groups`
(Beach, Jungle, Wetlands, Caves). -/
def habitatOrder : List Habitat :=
  [Habitat.beach, Habitat.jungle, Habitat.wetlands, Habitat.caves]

/-- Habitat display name: the keys of `groups`. -/
def habName : Habitat → List Char
  | Habitat.beach => "Beach".data
  | Habitat.jungle => "Jungle".data
  | Habitat.wetlands => "Wetlands".data
  | Habitat.caves => "Caves".data

/-- Mean weight parameter of each habitat (first entry of `groups[name]`). -/
def habMean : Habitat → Int
  | Habitat.beach => 50
  | Habitat.jungle => 120
  | Habitat.wetlands => 220
  | Habitat.caves => 350

/-- Standard deviation parameter of each habitat (second entry of
`groups[name]`). -/
def habStd : Habitat → Int
  | Habitat.beach => 5
  | Habitat.jungle => 15
  | Habitat.wetlands => 30
  | Habitat.caves => 60

/-- Stratum size of each habitat (third entry of `groups[name]`). -/
def habSize : Habitat → Nat
  | Habitat.beach => 4000
  | Habitat.jungle => 4000
  | Habitat.wetlands => 1500
  | Habitat.caves => 500

/-- Catchability of a habitat, decided by comparing the habitat name as the
source does: Caves get 0.05, Wetlands 0.6, everything else 1.0. -/
def catchProbOf (h : Habitat) : Rat :=
  if habName h = "Caves".data then 1 / 20
  else if habName h = "Wetlands".data then 3 / 5
  else 1

/-- Decimal digit characters used when rendering indices and weights. -/
def digitChar : Nat → Char
  | 0 => '0'
  | 1 => '1'
  | 2 => '2'
  | 3 => '3'
  | 4 => '4'
  | 5 => '5'
  | 6 => '6'
  | 7 => '7'
  | 8 => '8'
  | 9 => '9'
  | _ => '0'

/-- Decimal rendering of a natural number (Python str(i)). -/
def natRepr (n : Nat) : List Char :=
  if _h : n < 10 then [digitChar n]
  else natRepr (n / 10) ++ [digitChar (n % 10)]
termination_by n
decreasing_by exact Nat.div_lt_self (by omega) (by omega)

/-- First character of the habitat name (`name[0]` in the source). -/
def habInitial (h : Habitat) : Char := (habName h).headD 'X'

/-- Row identifier: habitat initial, underscore, index within the stratum
(the f-string `name[0]_i`). -/
def idOf (h : Habitat) (i : Nat) : List Char :=
  habInitial h :: '_' :: natRepr i

/-- A row of the population: id, habitat, weight and catch probability.
Weights are modelled as integers (the exact real value of each normal draw
is abstract; only its algebra matters). -/
structure Individual where
  id : List Char
  habitat : Habitat
  weight : Int
  catchProb : Rat
deriving DecidableEq

/-- Abstract state of the numpy global generator: the seed it was last
seeded with, and how many standard normal draws were consumed since. -/
abbrev RngState := Nat × Nat

/-- Model of np.random.seed(s): resets the global generator state. -/
def npSeed (s : Nat) (_ : RngState) : RngState := (s, 0)

/-- Model of np.random.normal(mu, sigma, n): returns mu + sigma * z for the
next n values z of the abstract standard normal stream of the current seed,
advancing the stream position by n. -/
def drawNormals (z : Nat → Nat → Int) (mu sigma : Int) (n : Nat)
    (st : RngState) : List Int × RngState :=
  ((List.range n).map (fun i => mu + sigma * z st.1 (st.2 + i)),
    (st.1, st.2 + n))

/-- Rows generated for one habitat: ids ranged over the stratum, the
habitat's normal draws as weights, and the habitat's catch probability on
every row. -/
def habitatRows (z : Nat → Nat → Int) (h : Habitat) (st : RngState) :
    List Individual × RngState :=
  (((List.range (habSize h)).zip
      (drawNormals z (habMean h) (habStd h) (habSize h) st).1).map
    (fun p => ⟨idOf h p.1, h, p.2, catchProbOf h⟩),
   (drawNormals z (habMean h) (habStd h) (habSize h) st).2)

/-- The loop body of get_population: concatenates the rows of each habitat
in order, threading the single generator state through all habitats. -/
def buildPop (z : Nat → Nat → Int) :
    List Habitat → RngState → List Individual × RngState
  | [], st => ([], st)
  | h :: hs, st =>
    ((habitatRows z h st).1 ++ (buildPop z hs (habitatRows z h st).2).1,
     (buildPop z hs (habitatRows z h st).2).2)

/-- get_population: seeds the generator once (seed 101) and then draws all
habitats in the fixed order. -/
def get_population (z : Nat → Nat → Int) (st : RngState) :
    List Individual × RngState :=
  buildPop z habitatOrder (npSeed 101 st)

/-- Arithmetic mean of a list of weights, as an exact rational. -/
def listMean (l : List Int) : Rat := (l.sum : Rat) / (l.length : Rat)

/-- true_mean: mean weight over the entire population. -/
def true_mean (pop : List Individual) : Rat :=
  listMean (pop.map (fun x => x.weight))

/-- sample_mean: mean weight over the sample. -/
def sample_mean (s : List Individual) : Rat :=
  listMean (s.map (fun x => x.weight))

/-- error: sample_mean - true_mean (signed). -/
def sample_error (pop s : List Individual) : Rat :=
  sample_mean s - true_mean pop

/-- Errors of the sampler, as named by the specification. -/
inductive SamplerError
  | invalidSampleSize
  | emptySampleRequest
deriving DecidableEq

/-- A sampling strategy: simple random with a total size, or stratified
with one requested count per habitat. -/
inductive Strategy
  | simpleRandom (totalSize : Nat)
  | stratified (req : Habitat → Nat)

/-- Validity of a model of DataFrame.sample(n): the selection has the
requested length (capped at the frame's size) and takes its rows from the
frame. -/
def ValidSelect (sel : Nat → List Individual → List Individual) : Prop :=
  ∀ n l, (sel n l).length = min n l.length ∧ ∀ x, x ∈ sel n l → x ∈ l

/-- One concrete valid selector (used to instantiate witnesses). -/
def takeSelect (n : Nat) (l : List Individual) : List Individual := l.take n

/-- sub_pop: the rows of the population whose habitat is h
(`full_pop[full_pop['Habitat'] == habitat]`). -/
def sub_pop (pop : List Individual) (h : Habitat) : List Individual :=
  pop.filter (fun x => decide (x.habitat = h))

/-- One stratified sub-draw: to_take = min(n_req, len(sub_pop)) rows
sampled from the stratum. -/
def sub_draw (selU : Nat → List Individual → List Individual)
    (pop : List Individual) (req : Habitat → Nat) (h : Habitat) :
    List Individual :=
  selU (min (req h) (sub_pop pop h).length) (sub_pop pop h)

/-- sub_samples: one sub-draw per habitat with a positive request, in the
fixed habitat order. -/
def sub_samples (selU : Nat → List Individual → List Individual)
    (pop : List Individual) (req : Habitat → Nat) : List (List Individual) :=
  habitatOrder.filterMap
    (fun h => if 0 < req h then some (sub_draw selU pop req h) else none)

/-- draw_sample: the main simulation logic.  Stratified mode concatenates
the per-habitat sub-draws and fails with emptySampleRequest when there are
none; simple mode rejects sizes outside the number_input bounds
(min_value=1, max_value=10000) as invalidSampleSize and otherwise samples
the full population, weighting by catch probability exactly when the bias
flag is set. -/
def draw_sample (selU selW : Nat → List Individual → List Individual)
    (pop : List Individual) (bias : Bool) :
    Strategy → Except SamplerError (List Individual)
  | Strategy.stratified req =>
    if sub_samples selU pop req = [] then
      Except.error SamplerError.emptySampleRequest
    else Except.ok (sub_samples selU pop req).flatten
  | Strategy.simpleRandom n =>
    if n < 1 ∨ 10000 < n then Except.error SamplerError.invalidSampleSize
    else Except.ok (if bias then selW n pop else selU n pop)

/-- Names bound at module scope of src/lizard_sample3.py by the time the
bar-chart count expression at line 157 is evaluated (the union over both
UI paths; `counts` itself is only being assigned there). -/
def moduleScopeNames : List String :=
  ["st", "pd", "np", "plt", "population_stats", "get_population",
   "full_pop", "true_mean", "enable_stratified", "enable_bias",
   "n_beach", "n_jungle", "n_wetland", "n_caves", "n_total", "run_btn",
   "sample_df", "strata_requests", "sub_samples", "habitat", "n_req",
   "sub_pop", "to_take", "weights", "col1", "col2", "col3",
   "sample_mean", "error", "fig", "ax1", "ax2"]

/-- Names local to the body of get_population, hence out of scope at
module level. -/
def getPopulationLocalNames : List String :=
  ["groups", "pop_list", "name", "params", "mu", "sigma", "n_count",
   "weights", "catch_prob"]

/-- Weighted mean of the configured habitat mean weights, weighted by
stratum size: the expected value of the population mean under the
reference configuration. -/
def configWeightedMean : Rat :=
  (((habitatOrder.map (fun h => habMean h * (habSize h : Int))).sum : Int) :
      Rat)
    / (((habitatOrder.map habSize).sum : Nat) : Rat)

/-- Decimal parsing helper: fold decimal digits onto an accumulator. -/
def natParseFrom (a : Nat) (l : List Char) : Nat :=
  l.foldl (fun b c => 10 * b + (c.toNat - 48)) a

/-- Decimal parse of a digit string. -/
def natParse (l : List Char) : Nat := natParseFrom 0 l

/-- Rendering of an integer weight (Python str of an int). -/
def intRepr (w : Int) : List Char :=
  if w < 0 then '-' :: natRepr w.natAbs else natRepr w.natAbs

/-- Parse of an integer field. -/
def intParse (l : List Char) : Option Int :=
  match l with
  | [] => none
  | c :: rest =>
    if c = '-' then
      if rest = [] then none else some (-(natParse rest : Int))
    else some (natParse l : Int)

/-- Rendering of a catch probability field as it appears in the CSV
export: the three configured values print as 0.05, 0.6 and 1.0. -/
def probRepr (q : Rat) : List Char :=
  if q = 1 / 20 then "0.05".data
  else if q = 3 / 5 then "0.6".data
  else if q = 1 then "1.0".data
  else "NaN".data

/-- Parse of a catch probability field. -/
def probParse (l : List Char) : Option Rat :=
  if l = "0.05".data then some (1 / 20)
  else if l = "0.6".data then some (3 / 5)
  else if l = "1.0".data then some 1
  else none

/-- Habitat recovered from its display name. -/
def habOfName (l : List Char) : Option Habitat :=
  if l = "Beach".data then some Habitat.beach
  else if l = "Jungle".data then some Habitat.jungle
  else if l = "Wetlands".data then some Habitat.wetlands
  else if l = "Caves".data then some Habitat.caves
  else none

/-- The four CSV fields of one sample row, in column order. -/
def csvFields (x : Individual) : List (List Char) :=
  [x.id, habName x.habitat, intRepr x.weight, probRepr x.catchProb]

/-- The CSV header row: the DataFrame column names. -/
def csvHeader : List (List Char) :=
  ["ID".data, "Habitat".data, "Weight_g".data, "Catch_Prob".data]

/-- Join fields with a separator character. -/
def joinWith (sep : Char) : List (List Char) → List Char
  | [] => []
  | [f] => f
  | f :: fs => f ++ sep :: joinWith sep fs

/-- Split on a separator character; inverse of joinWith on
separator-free fields. -/
def splitOnChar (sep : Char) : List Char → List (List Char)
  | [] => [[]]
  | c :: cs =>
    if c = sep then [] :: splitOnChar sep cs
    else
      match splitOnChar sep cs with
      | [] => [[c]]
      | f :: fs => (c :: f) :: fs

/-- sample_df.to_csv(index=False): a header line and one line per row,
fields comma-separated, each line terminated by a newline. -/
def toCsv (s : List Individual) : List Char :=
  ((csvHeader :: s.map csvFields).map
    (fun r => joinWith ',' r ++ ['\n'])).flatten

/-- read_csv-style parse of the export: split into lines, drop blank
lines, split each line on commas. -/
def parseCsv (t : List Char) : List (List (List Char)) :=
  ((splitOnChar '\n' t).filter (fun l => decide (l ≠ []))).map
    (splitOnChar ',')

/-- Decoding of one parsed CSV data row back into a table row. -/
def decodeRow : List (List Char) → Option Individual
  | [i, hn, w, p] =>
    match habOfName hn, intParse w, probParse p with
    | some h, some wv, some pv => some ⟨i, h, wv, pv⟩
    | _, _, _ => none
  | _ => none

/-- Rows that the flat comma/newline format can carry: no separator
characters inside the id, and one of the three configured catch
probabilities. -/
abbrev CsvSafe (x : Individual) : Prop :=
  (',' ∉ x.id ∧ '\n' ∉ x.id)
    ∧ (x.catchProb = 1 / 20 ∨ x.catchProb = 3 / 5 ∨ x.catchProb = 1)

theorem validSelect_take : ValidSelect takeSelect :=
  fun n l => ⟨List.length_take n l, fun _ hx => List.take_subset n l hx⟩

/-- Claim C6: population generation is deterministic.  The generator is
seeded exactly once per build, so two invocations from arbitrary prior
generator states yield identical weights in identical order (indeed
identical populations), and the single stream is consumed sequentially
across all four habitats, ending at position 10000. -/
theorem get_population_deterministic (z : Nat → Nat → Int)
    (st1 st2 : RngState) :
    (get_population z st1).1.map (fun x => x.weight)
        = (get_population z st2).1.map (fun x => x.weight)
      ∧ (get_population z st1).1 = (get_population z st2).1
      ∧ (get_population z st1).2 = (101, 10000) := by
  refine ⟨rfl, rfl, ?_⟩
  rfl

/-- Claim C5: a stratified draw never looks at the bias flag: the result is
syntactically the same function of the population and quotas for any two
states of the flag, so the selection probabilities are unaffected. -/
theorem stratified_bias_independent
    (selU selW : Nat → List Individual → List Individual)
    (pop : List Individual) (req : Habitat → Nat) (b1 b2 : Bool) :
    draw_sample selU selW pop b1 (Strategy.stratified req)
      = draw_sample selU selW pop b2 (Strategy.stratified req) := rfl

/-- Claim C4: a stratified request in which every habitat's count is 0
fails with emptySampleRequest and produces no sample. -/
theorem stratified_empty_request
    (selU selW : Nat → List Individual → List Individual)
    (pop : List Individual) (bias : Bool) (req : Habitat → Nat)
    (hz : ∀ h, req h = 0) :
    draw_sample selU selW pop bias (Strategy.stratified req)
      = Except.error SamplerError.emptySampleRequest := by
  have hs : sub_samples selU pop req = [] := by
    simp [sub_samples, habitatOrder, hz]
  simp [draw_sample, hs]

theorem stratified_empty_request_witness :
    (∀ h : Habitat, (fun _ : Habitat => 0) h = 0)
      ∧ draw_sample takeSelect takeSelect [] false
          (Strategy.stratified (fun _ => 0))
        = Except.error SamplerError.emptySampleRequest :=
  ⟨fun _ => rfl,
   stratified_empty_request takeSelect takeSelect [] false _ (fun _ => rfl)⟩

theorem habitatRows_length (z : Nat → Nat → Int) (h : Habitat)
    (st : RngState) : (habitatRows z h st).1.length = habSize h := by
  simp [habitatRows, drawNormals]

theorem get_population_length (z : Nat → Nat → Int) (st : RngState) :
    (get_population z st).1.length = 10000 := by
  simp [get_population, npSeed, habitatOrder, buildPop, List.length_append,
    habitatRows_length, habSize]

theorem mem_sub_pop {pop : List Individual} {h : Habitat} {x : Individual} :
    x ∈ sub_pop pop h ↔ x ∈ pop ∧ x.habitat = h := by
  simp [sub_pop]

theorem sub_draw_habitat {selU : Nat → List Individual → List Individual}
    (hU : ValidSelect selU) (pop : List Individual) (req : Habitat → Nat)
    (h : Habitat) : ∀ x ∈ sub_draw selU pop req h, x.habitat = h := by
  intro x hx
  exact (mem_sub_pop.mp ((hU _ _).2 x hx)).2

theorem filter_sub_draw_self {selU : Nat → List Individual → List Individual}
    (hU : ValidSelect selU) (pop : List Individual) (req : Habitat → Nat)
    (h : Habitat) :
    (sub_draw selU pop req h).filter (fun x => decide (x.habitat = h))
      = sub_draw selU pop req h :=
  List.filter_eq_self.mpr
    (fun a ha => by simp [sub_draw_habitat hU pop req h a ha])

theorem filter_sub_draw_ne {selU : Nat → List Individual → List Individual}
    (hU : ValidSelect selU) (pop : List Individual) (req : Habitat → Nat)
    {h h2 : Habitat} (hne : h2 ≠ h) :
    (sub_draw selU pop req h2).filter (fun x => decide (x.habitat = h))
      = [] :=
  List.filter_eq_nil_iff.mpr
    (fun a ha => by simp [sub_draw_habitat hU pop req h2 a ha, hne])

theorem sub_draw_length {selU : Nat → List Individual → List Individual}
    (hU : ValidSelect selU) (pop : List Individual) (req : Habitat → Nat)
    (h : Habitat) :
    (sub_draw selU pop req h).length
      = min (req h) (sub_pop pop h).length := by
  have h1 := (hU (min (req h) (sub_pop pop h).length) (sub_pop pop h)).1
  simp only [sub_draw]
  rw [h1]
  exact Nat.min_eq_left (Nat.min_le_right _ _)

theorem stratified_filter_not_mem
    {selU : Nat → List Individual → List Individual} (hU : ValidSelect selU)
    (pop : List Individual) (req : Habitat → Nat) (h : Habitat) :
    ∀ L : List Habitat, h ∉ L →
      (((L.filterMap (fun h2 =>
            if 0 < req h2 then some (sub_draw selU pop req h2)
            else none)).flatten).filter
        (fun x => decide (x.habitat = h))) = [] := by
  intro L
  induction L with
  | nil => intro _; simp
  | cons h2 L ih =>
    intro hmem
    have hne : h2 ≠ h := fun e => hmem (by simp [e])
    have hnot : h ∉ L := fun e => hmem (by simp [e])
    by_cases hc : 0 < req h2
    · simp only [List.filterMap_cons, if_pos hc, List.flatten_cons,
        List.filter_append]
      rw [filter_sub_draw_ne hU pop req hne, ih hnot]
      rfl
    · simp only [List.filterMap_cons, if_neg hc]
      exact ih hnot

theorem stratified_filter_count
    {selU : Nat → List Individual → List Individual} (hU : ValidSelect selU)
    (pop : List Individual) (req : Habitat → Nat) (h : Habitat)
    (hpos : 0 < req h) :
    ∀ L : List Habitat, L.Nodup → h ∈ L →
      (((L.filterMap (fun h2 =>
            if 0 < req h2 then some (sub_draw selU pop req h2)
            else none)).flatten).filter
          (fun x => decide (x.habitat = h))).length
        = min (req h) (sub_pop pop h).length := by
  intro L
  induction L with
  | nil => intro _ hmem; cases hmem
  | cons h2 L ih =>
    intro hnd hmem
    rcases List.mem_cons.mp hmem with he | hm
    · subst he
      have hnotL : h ∉ L := (List.nodup_cons.mp hnd).1
      simp only [List.filterMap_cons, if_pos hpos, List.flatten_cons,
        List.filter_append]
      rw [filter_sub_draw_self hU pop req h,
        stratified_filter_not_mem hU pop req h L hnotL]
      simp [sub_draw_length hU pop req h]
    · have hne : h2 ≠ h := by
        rintro rfl
        exact (List.nodup_cons.mp hnd).1 hm
      have hndL : L.Nodup := (List.nodup_cons.mp hnd).2
      by_cases hc : 0 < req h2
      · simp only [List.filterMap_cons, if_pos hc, List.flatten_cons,
          List.filter_append]
        rw [filter_sub_draw_ne hU pop req hne]
        simp only [List.nil_append]
        exact ih hndL hm
      · simp only [List.filterMap_cons, if_neg hc]
        exact ih hndL hm

theorem mem_habitatOrder (h : Habitat) : h ∈ habitatOrder := by
  cases h <;> simp [habitatOrder]

theorem nodup_habitatOrder : habitatOrder.Nodup := by decide

theorem sub_samples_ne_nil {selU : Nat → List Individual → List Individual}
    {pop : List Individual} {req : Habitat → Nat} {h : Habitat}
    (hpos : 0 < req h) : sub_samples selU pop req ≠ [] := by
  have hmem : sub_draw selU pop req h ∈ sub_samples selU pop req :=
    List.mem_filterMap.mpr ⟨h, mem_habitatOrder h, by simp [hpos]⟩
  exact List.ne_nil_of_mem hmem

/-- Claim C1: in a stratified draw, every habitat with a positive request
contributes exactly min(quota, stratum size) individuals to the sample; in
particular an over-sized quota yields the full stratum, never more, and
the draw succeeds (no error). -/
theorem stratified_quota_cap
    (selU selW : Nat → List Individual → List Individual)
    (hU : ValidSelect selU) (pop : List Individual) (req : Habitat → Nat)
    (bias : Bool) (h : Habitat) (hpos : 0 < req h) :
    ∃ s, draw_sample selU selW pop bias (Strategy.stratified req)
        = Except.ok s
      ∧ (s.filter (fun x => decide (x.habitat = h))).length
          = min (req h) (sub_pop pop h).length := by
  refine ⟨(sub_samples selU pop req).flatten, ?_, ?_⟩
  · simp [draw_sample, sub_samples_ne_nil hpos]
  · exact stratified_filter_count hU pop req h hpos habitatOrder
      nodup_habitatOrder (mem_habitatOrder h)

theorem stratified_quota_cap_witness :
    (0 < (fun _ : Habitat => 5) Habitat.beach)
      ∧ ∃ s, draw_sample takeSelect takeSelect
            ([⟨"B_0".data, Habitat.beach, 50, 1⟩] : List Individual) false
            (Strategy.stratified (fun _ => 5)) = Except.ok s
          ∧ (s.filter (fun x => decide (x.habitat = Habitat.beach))).length
              = min ((fun _ : Habitat => 5) Habitat.beach)
                  (sub_pop ([⟨"B_0".data, Habitat.beach, 50, 1⟩] :
                    List Individual) Habitat.beach).length :=
  ⟨by decide,
   stratified_quota_cap takeSelect takeSelect validSelect_take _ _ false
     Habitat.beach (by decide)⟩

/-- Claim C3: a simple random draw from the generated population fails with
invalidSampleSize exactly when the requested size is 0 or exceeds the
population size (10000), and otherwise succeeds with a sample of the
requested size. -/
theorem simple_size_errors
    (selU selW : Nat → List Individual → List Individual)
    (hU : ValidSelect selU) (hW : ValidSelect selW)
    (z : Nat → Nat → Int) (st : RngState) (bias : Bool) (n : Nat) :
    ((n = 0 ∨ (get_population z st).1.length < n) →
        draw_sample selU selW (get_population z st).1 bias
            (Strategy.simpleRandom n)
          = Except.error SamplerError.invalidSampleSize)
      ∧ ((0 < n ∧ n ≤ (get_population z st).1.length) →
          ∃ s, draw_sample selU selW (get_population z st).1 bias
                (Strategy.simpleRandom n)
              = Except.ok s ∧ s.length = n) := by
  have hlen := get_population_length z st
  constructor
  · intro hbad
    rw [hlen] at hbad
    have hcond : n < 1 ∨ 10000 < n := by omega
    simp only [draw_sample]
    rw [if_pos hcond]
  · intro hok
    rw [hlen] at hok
    have hcond : ¬(n < 1 ∨ 10000 < n) := by omega
    refine ⟨if bias then selW n (get_population z st).1
            else selU n (get_population z st).1, ?_, ?_⟩
    · simp only [draw_sample]
      rw [if_neg hcond]
    · cases bias
      · have := (hU n (get_population z st).1).1
        rw [hlen] at this
        simp only [Bool.false_eq_true, if_neg, ite_false]
        omega
      · have := (hW n (get_population z st).1).1
        rw [hlen] at this
        simp only [ite_true]
        omega

theorem simple_size_errors_witness :
    ((100 = 0 ∨ (get_population (fun _ _ => 0) (0, 0)).1.length < 100) →
        draw_sample takeSelect takeSelect
            (get_population (fun _ _ => 0) (0, 0)).1 false
            (Strategy.simpleRandom 100)
          = Except.error SamplerError.invalidSampleSize)
      ∧ ((0 < 100 ∧ 100 ≤ (get_population (fun _ _ => 0) (0, 0)).1.length) →
          ∃ s, draw_sample takeSelect takeSelect
                (get_population (fun _ _ => 0) (0, 0)).1 false
                (Strategy.simpleRandom 100)
              = Except.ok s ∧ s.length = 100) :=
  simple_size_errors takeSelect takeSelect validSelect_take validSelect_take
    (fun _ _ => 0) (0, 0) false 100

/-- Claim C7: when the sample is the entire population (as a multiset),
the sample mean equals the true mean exactly and the error is exactly 0. -/
theorem summary_full_population (pop s : List Individual)
    (hperm : s.Perm pop) :
    sample_mean s = true_mean pop ∧ sample_error pop s = 0 := by
  have hmap : (s.map (fun x => x.weight)).Perm
      (pop.map (fun x => x.weight)) := hperm.map _
  have hsum := hmap.sum_eq
  have hlen := hmap.length_eq
  constructor
  · simp [sample_mean, true_mean, listMean, hsum, hlen]
  · simp [sample_error, sample_mean, true_mean, listMean, hsum, hlen]

theorem summary_full_population_witness :
    (([⟨"J_0".data, Habitat.jungle, 120, 1⟩,
        ⟨"B_0".data, Habitat.beach, 50, 1⟩] : List Individual).Perm
        ([⟨"B_0".data, Habitat.beach, 50, 1⟩,
          ⟨"J_0".data, Habitat.jungle, 120, 1⟩] : List Individual))
      ∧ (sample_mean
            ([⟨"J_0".data, Habitat.jungle, 120, 1⟩,
              ⟨"B_0".data, Habitat.beach, 50, 1⟩] : List Individual)
          = true_mean
            ([⟨"B_0".data, Habitat.beach, 50, 1⟩,
              ⟨"J_0".data, Habitat.jungle, 120, 1⟩] : List Individual)
        ∧ sample_error
            ([⟨"B_0".data, Habitat.beach, 50, 1⟩,
              ⟨"J_0".data, Habitat.jungle, 120, 1⟩] : List Individual)
            ([⟨"J_0".data, Habitat.jungle, 120, 1⟩,
              ⟨"B_0".data, Habitat.beach, 50, 1⟩] : List Individual) = 0) :=
  ⟨by decide, summary_full_population _ _ (by decide)⟩

/-- Claim C2 (code bug): the habitat count expression at line 157 reads
`groups`, but `groups` is a local name of get_population and is not among
the module-scope names in scope there, so the lookup raises NameError and
habitat_counts is never computed. -/
theorem habitat_counts_name_out_of_scope :
    "groups" ∉ moduleScopeNames ∧ "groups" ∈ getPopulationLocalNames := by
  constructor <;> decide

/-- Claim C8 counterexample: the population weighted mean of the reference
configuration is exactly 118.5 g, not approximately 121.6 g as claimed
(the two differ by 3.1 g). -/
theorem scenario_weighted_mean_not_121_6 :
    configWeightedMean = 237 / 2
      ∧ (608 / 5 : Rat) - configWeightedMean = 31 / 10 := by
  constructor <;>
    norm_num [configWeightedMean, habitatOrder, habMean, habSize]

/-- Claim C8 (amended): for the reference configuration and seed 101, a
simple unbiased draw of size 100 succeeds with exactly 100 rows, the
population weighted mean is 118.5 g, and the error is recomputable as
sample mean minus true mean. -/
theorem scenario_reference
    (selU selW : Nat → List Individual → List Individual)
    (hU : ValidSelect selU) (z : Nat → Nat → Int) (st : RngState) :
    (∃ s, draw_sample selU selW (get_population z st).1 false
          (Strategy.simpleRandom 100) = Except.ok s ∧ s.length = 100)
      ∧ configWeightedMean = 237 / 2
      ∧ ∀ s, sample_error (get_population z st).1 s
          = sample_mean s - true_mean (get_population z st).1 := by
  refine ⟨?_, ?_, fun s => rfl⟩
  · have hlen := get_population_length z st
    have hcond : ¬((100 : Nat) < 1 ∨ 10000 < (100 : Nat)) := by omega
    refine ⟨selU 100 (get_population z st).1, ?_, ?_⟩
    · simp only [draw_sample]
      rw [if_neg hcond]
      simp
    · have hsel := (hU 100 (get_population z st).1).1
      rw [hlen] at hsel
      omega
  · norm_num [configWeightedMean, habitatOrder, habMean, habSize]

theorem scenario_reference_witness :
    ((∃ s, draw_sample takeSelect takeSelect
          (get_population (fun _ _ => 0) (0, 0)).1 false
          (Strategy.simpleRandom 100) = Except.ok s ∧ s.length = 100)
      ∧ configWeightedMean = 237 / 2
      ∧ ∀ s, sample_error (get_population (fun _ _ => 0) (0, 0)).1 s
          = sample_mean s
              - true_mean (get_population (fun _ _ => 0) (0, 0)).1) :=
  scenario_reference takeSelect takeSelect validSelect_take
    (fun _ _ => 0) (0, 0)

theorem digitChar_toNat (d : Nat) (hd : d < 10) :
    (digitChar d).toNat = 48 + d := by
  interval_cases d <;> decide

theorem digitChar_not_sep (d : Nat) (hd : d < 10) :
    digitChar d ≠ ',' ∧ digitChar d ≠ '\n' ∧ digitChar d ≠ '-' := by
  interval_cases d <;> exact ⟨by decide, by decide, by decide⟩

theorem natParseFrom_append (a : Nat) (l1 l2 : List Char) :
    natParseFrom a (l1 ++ l2) = natParseFrom (natParseFrom a l1) l2 := by
  simp [natParseFrom, List.foldl_append]

theorem natParseFrom_natRepr (n : Nat) :
    ∀ a, natParseFrom a (natRepr n)
      = a * 10 ^ (natRepr n).length + n := by
  induction n using Nat.strong_induction_on with
  | _ n ih =>
    intro a
    by_cases h : n < 10
    · rw [natRepr.eq_def]
      simp only [h, dite_true, if_pos]
      simp [natParseFrom, digitChar_toNat n h]
      omega
    · have hdiv : n / 10 < n := Nat.div_lt_self (by omega) (by omega)
      rw [natRepr.eq_def]
      simp only [h, dite_false]
      rw [natParseFrom_append, ih (n / 10) hdiv a]
      simp only [natParseFrom, List.foldl_cons, List.foldl_nil,
        List.length_append, List.length_cons, List.length_nil,
        digitChar_toNat (n % 10) (by omega), Nat.zero_add, pow_succ,
        ← mul_assoc]
      have hmod : 48 + n % 10 - 48 = n % 10 := by omega
      rw [hmod]
      set A := a * 10 ^ (natRepr (n / 10)).length with hA
      omega

theorem natParse_natRepr (n : Nat) : natParse (natRepr n) = n := by
  have := natParseFrom_natRepr n 0
  simpa [natParse] using this

theorem natRepr_injective {m n : Nat} (e : natRepr m = natRepr n) :
    m = n := by
  have h1 := natParse_natRepr m
  have h2 := natParse_natRepr n
  rw [e, h2] at h1
  exact h1.symm

theorem natRepr_chars (n : Nat) :
    ∀ c ∈ natRepr n, ∃ d, d < 10 ∧ c = digitChar d := by
  induction n using Nat.strong_induction_on with
  | _ n ih =>
    intro c hc
    by_cases h : n < 10
    · rw [natRepr.eq_def] at hc
      simp only [h, dite_true, if_pos] at hc
      simp only [List.mem_singleton] at hc
      exact ⟨n, h, hc⟩
    · have hdiv : n / 10 < n := Nat.div_lt_self (by omega) (by omega)
      rw [natRepr.eq_def] at hc
      simp only [h, dite_false, List.mem_append, List.mem_singleton] at hc
      rcases hc with hc | hc
      · exact ih (n / 10) hdiv c hc
      · exact ⟨n % 10, by omega, hc⟩

theorem natRepr_ne_nil (n : Nat) : natRepr n ≠ [] := by
  rw [natRepr.eq_def]
  by_cases h : n < 10 <;> simp [h]

theorem natRepr_no_sep (n : Nat) :
    ',' ∉ natRepr n ∧ '\n' ∉ natRepr n ∧ '-' ∉ natRepr n := by
  refine ⟨fun hc => ?_, fun hc => ?_, fun hc => ?_⟩
  · rcases natRepr_chars n _ hc with ⟨d, hd, he⟩
    exact (digitChar_not_sep d hd).1 he.symm
  · rcases natRepr_chars n _ hc with ⟨d, hd, he⟩
    exact (digitChar_not_sep d hd).2.1 he.symm
  · rcases natRepr_chars n _ hc with ⟨d, hd, he⟩
    exact (digitChar_not_sep d hd).2.2 he.symm

theorem intRepr_no_sep (w : Int) :
    ',' ∉ intRepr w ∧ '\n' ∉ intRepr w := by
  unfold intRepr
  by_cases h : w < 0 <;>
    simp [h, natRepr_no_sep w.natAbs |>.1, natRepr_no_sep w.natAbs |>.2.1]

theorem intParse_intRepr (w : Int) : intParse (intRepr w) = some w := by
  by_cases h : w < 0
  · simp only [intRepr, if_pos h, intParse, if_true]
    rw [if_neg (natRepr_ne_nil w.natAbs), natParse_natRepr]
    congr 1
    omega
  · simp only [intRepr, if_neg h]
    rcases he : natRepr w.natAbs with _ | ⟨c, rest⟩
    · exact absurd he (natRepr_ne_nil w.natAbs)
    · have hcmem : c ∈ natRepr w.natAbs := by rw [he]; simp
      rcases natRepr_chars _ c hcmem with ⟨d, hd, rfl⟩
      simp only [intParse]
      rw [if_neg (digitChar_not_sep d hd).2.2]
      rw [← he, natParse_natRepr]
      congr 1
      omega

theorem habName_no_sep (h : Habitat) :
    ',' ∉ habName h ∧ '\n' ∉ habName h := by
  cases h <;> exact ⟨by decide, by decide⟩

theorem probRepr_no_sep (q : Rat) :
    ',' ∉ probRepr q ∧ '\n' ∉ probRepr q := by
  unfold probRepr
  split_ifs <;> exact ⟨by decide, by decide⟩

theorem splitOnChar_no_sep (sep : Char) (l : List Char) (hl : sep ∉ l) :
    splitOnChar sep l = [l] := by
  induction l with
  | nil => rfl
  | cons c cs ih =>
    have hc : ¬c = sep := fun e => hl (by simp [e])
    have hcs : sep ∉ cs := fun e => hl (by simp [e])
    simp only [splitOnChar, if_neg hc, ih hcs]

theorem splitOnChar_append (sep : Char) (r t : List Char) (hr : sep ∉ r) :
    splitOnChar sep (r ++ sep :: t) = r :: splitOnChar sep t := by
  induction r with
  | nil => simp [splitOnChar]
  | cons c cs ih =>
    have hc : ¬c = sep := fun e => hr (by simp [e])
    have hcs : sep ∉ cs := fun e => hr (by simp [e])
    simp only [List.cons_append, splitOnChar, if_neg hc, List.append_eq]
    rw [ih hcs]

theorem splitOnChar_flatten (sep : Char) :
    ∀ rows : List (List Char), (∀ r ∈ rows, sep ∉ r) →
      splitOnChar sep ((rows.map (fun r => r ++ [sep])).flatten)
        = rows ++ [[]] := by
  intro rows
  induction rows with
  | nil => intro _; rfl
  | cons r rows ih =>
    intro hr
    have h1 : (((r :: rows).map (fun r => r ++ [sep])).flatten)
        = r ++ sep :: ((rows.map (fun r => r ++ [sep])).flatten) := by
      simp
    rw [h1, splitOnChar_append sep _ _ (hr r (by simp)),
      ih (fun a ha => hr a (by simp [ha]))]
    rfl

theorem mem_joinWith {c sep : Char} :
    ∀ fs : List (List Char), c ∈ joinWith sep fs →
      c = sep ∨ ∃ f ∈ fs, c ∈ f := by
  intro fs
  induction fs with
  | nil => intro h; cases h
  | cons f fs ih =>
    cases fs with
    | nil => intro h; exact Or.inr ⟨f, by simp, h⟩
    | cons g gs =>
      intro h
      have h2 : joinWith sep (f :: g :: gs)
          = f ++ sep :: joinWith sep (g :: gs) := rfl
      rw [h2] at h
      rcases List.mem_append.mp h with h1 | h1
      · exact Or.inr ⟨f, by simp, h1⟩
      · rcases List.mem_cons.mp h1 with h3 | h3
        · exact Or.inl h3
        · rcases ih h3 with h4 | ⟨f2, hf2, hc2⟩
          · exact Or.inl h4
          · exact Or.inr ⟨f2, by simp [hf2], hc2⟩

theorem splitOnChar_joinWith (sep : Char) :
    ∀ fs : List (List Char), fs ≠ [] → (∀ f ∈ fs, sep ∉ f) →
      splitOnChar sep (joinWith sep fs) = fs := by
  intro fs
  induction fs with
  | nil => intro h; exact absurd rfl h
  | cons f fs ih =>
    intro _ hf
    cases fs with
    | nil => exact splitOnChar_no_sep sep f (hf f (by simp))
    | cons g gs =>
      have h2 : joinWith sep (f :: g :: gs)
          = f ++ sep :: joinWith sep (g :: gs) := rfl
      rw [h2, splitOnChar_append sep f _ (hf f (by simp)),
        ih (by simp) (fun a ha => hf a (by simp [ha]))]

theorem joinWith_four_ne_nil (sep : Char) (a b c d : List Char) :
    joinWith sep [a, b, c, d] ≠ [] := by
  have h2 : joinWith sep [a, b, c, d]
      = a ++ sep :: joinWith sep [b, c, d] := rfl
  rw [h2]
  simp

theorem csvFields_no_comma (x : Individual) (hx : CsvSafe x) :
    ∀ f ∈ csvFields x, ',' ∉ f := by
  intro f hf
  simp only [csvFields, List.mem_cons, List.not_mem_nil, or_false] at hf
  rcases hf with rfl | rfl | rfl | rfl
  · exact hx.1.1
  · exact (habName_no_sep x.habitat).1
  · exact (intRepr_no_sep x.weight).1
  · exact (probRepr_no_sep x.catchProb).1

theorem row_line_no_newline (x : Individual) (hx : CsvSafe x) :
    '\n' ∉ joinWith ',' (csvFields x) := by
  intro hmem
  rcases mem_joinWith (csvFields x) hmem with he | ⟨f, hf, hc⟩
  · exact absurd he (by decide)
  · simp only [csvFields, List.mem_cons, List.not_mem_nil, or_false] at hf
    rcases hf with rfl | rfl | rfl | rfl
    · exact hx.1.2 hc
    · exact (habName_no_sep x.habitat).2 hc
    · exact (intRepr_no_sep x.weight).2 hc
    · exact (probRepr_no_sep x.catchProb).2 hc

theorem header_no_newline : '\n' ∉ joinWith ',' csvHeader := by decide

theorem header_ne_nil : joinWith ',' csvHeader ≠ [] := by decide

theorem header_no_comma : ∀ f ∈ csvHeader, ',' ∉ f := by decide

theorem habOfName_habName (h : Habitat) :
    habOfName (habName h) = some h := by
  cases h <;> decide

theorem probParse_probRepr {q : Rat}
    (hq : q = 1 / 20 ∨ q = 3 / 5 ∨ q = 1) :
    probParse (probRepr q) = some q := by
  rcases hq with rfl | rfl | rfl
  · have h1 : probRepr (1 / 20 : Rat) = "0.05".data := by
      unfold probRepr
      rw [if_pos rfl]
    rw [h1]
    unfold probParse
    rw [if_pos rfl]
  · have h1 : probRepr (3 / 5 : Rat) = "0.6".data := by
      unfold probRepr
      rw [if_neg (by norm_num), if_pos rfl]
    rw [h1]
    unfold probParse
    rw [if_neg (by decide), if_pos rfl]
  · have h1 : probRepr (1 : Rat) = "1.0".data := by
      unfold probRepr
      rw [if_neg (by norm_num), if_neg (by norm_num), if_pos rfl]
    rw [h1]
    unfold probParse
    rw [if_neg (by decide), if_neg (by decide), if_pos rfl]

theorem decodeRow_csvFields (x : Individual)
    (hq : x.catchProb = 1 / 20 ∨ x.catchProb = 3 / 5 ∨ x.catchProb = 1) :
    decodeRow (csvFields x) = some x := by
  simp only [csvFields, decodeRow, habOfName_habName, intParse_intRepr,
    probParse_probRepr hq]

/-- Claim C9: serializing a sample to the CSV export format (header row
ID, Habitat, Weight_g, Catch_Prob; comma-separated fields; one line per
row) and parsing it back yields the header followed by exactly the
original rows, and each rendered row decodes back to the original
individual, so the serialization is loss-free. -/
theorem csv_round_trip (s : List Individual) (hs : ∀ x ∈ s, CsvSafe x) :
    parseCsv (toCsv s) = csvHeader :: s.map csvFields
      ∧ ∀ x ∈ s, decodeRow (csvFields x) = some x := by
  constructor
  · have hlines : ∀ r ∈ (csvHeader :: s.map csvFields).map (joinWith ','),
        '\n' ∉ r := by
      intro r hr
      rcases List.mem_map.mp hr with ⟨row, hrow, rfl⟩
      rcases List.mem_cons.mp hrow with rfl | hrow2
      · exact header_no_newline
      · rcases List.mem_map.mp hrow2 with ⟨x, hx, rfl⟩
        exact row_line_no_newline x (hs x hx)
    have hmap : (csvHeader :: s.map csvFields).map
          (fun r => joinWith ',' r ++ ['\n'])
        = ((csvHeader :: s.map csvFields).map (joinWith ',')).map
            (fun l => l ++ ['\n']) := by
      rw [List.map_map]
      rfl
    rw [parseCsv, toCsv, hmap, splitOnChar_flatten '\n' _ hlines]
    have hne : ∀ r ∈ (csvHeader :: s.map csvFields).map (joinWith ','),
        r ≠ [] := by
      intro r hr
      rcases List.mem_map.mp hr with ⟨row, hrow, rfl⟩
      rcases List.mem_cons.mp hrow with rfl | hrow2
      · exact header_ne_nil
      · rcases List.mem_map.mp hrow2 with ⟨x, hx, rfl⟩
        simp only [csvFields]
        exact joinWith_four_ne_nil ',' _ _ _ _
    rw [List.filter_append]
    have hfilter1 : (((csvHeader :: s.map csvFields).map
            (joinWith ',')).filter (fun l => decide (l ≠ [])))
        = (csvHeader :: s.map csvFields).map (joinWith ',') :=
      List.filter_eq_self.mpr (fun a ha => by simpa using hne a ha)
    have hfilter2 : (([([] : List Char)]).filter
        (fun l => decide (l ≠ []))) = [] := by decide
    rw [hfilter1, hfilter2, List.append_nil, List.map_map]
    have hjoin : ∀ row ∈ (csvHeader :: s.map csvFields),
        splitOnChar ',' (joinWith ',' row) = row := by
      intro row hrow
      rcases List.mem_cons.mp hrow with rfl | hrow2
      · exact splitOnChar_joinWith ',' csvHeader (by decide) header_no_comma
      · rcases List.mem_map.mp hrow2 with ⟨x, hx, rfl⟩
        exact splitOnChar_joinWith ',' (csvFields x)
          (by simp [csvFields]) (csvFields_no_comma x (hs x hx))
    conv_rhs => rw [← List.map_id (csvHeader :: s.map csvFields)]
    exact List.map_congr_left (fun a ha => hjoin a ha)
  · exact fun x hx => decodeRow_csvFields x (hs x hx).2

theorem csv_round_trip_witness :
    (∀ x ∈ ([⟨"B_0".data, Habitat.beach, 50, 1⟩] : List Individual),
        CsvSafe x)
      ∧ (parseCsv (toCsv
              ([⟨"B_0".data, Habitat.beach, 50, 1⟩] : List Individual))
            = csvHeader
                :: ([⟨"B_0".data, Habitat.beach, 50, 1⟩] :
                  List Individual).map csvFields
          ∧ ∀ x ∈ ([⟨"B_0".data, Habitat.beach, 50, 1⟩] : List Individual),
              decodeRow (csvFields x) = some x) := by
  have hsafe : ∀ x ∈ ([⟨"B_0".data, Habitat.beach, 50, 1⟩] :
      List Individual), CsvSafe x := by
    intro x hx
    rw [List.mem_singleton] at hx
    subst hx
    exact ⟨⟨by decide, by decide⟩, Or.inr (Or.inr rfl)⟩
  exact ⟨hsafe, csv_round_trip _ hsafe⟩

theorem habitatRows_map_id (z : Nat → Nat → Int) (h : Habitat)
    (st : RngState) :
    (habitatRows z h st).1.map (fun x => x.id)
      = (List.range (habSize h)).map (idOf h) := by
  have hlen : (List.range (habSize h)).length
      ≤ ((drawNormals z (habMean h) (habStd h) (habSize h) st).1).length := by
    simp [drawNormals]
  simp only [habitatRows, List.map_map]
  rw [show ((fun x : Individual => x.id) ∘ fun p : Nat × Int =>
      (⟨idOf h p.1, h, p.2, catchProbOf h⟩ : Individual))
      = (idOf h) ∘ Prod.fst from rfl]
  rw [← List.map_map, List.map_fst_zip _ _ hlen]

theorem buildPop_map_id (z : Nat → Nat → Int) :
    ∀ (L : List Habitat) (st : RngState),
      (buildPop z L st).1.map (fun x => x.id)
        = (L.map (fun h => (List.range (habSize h)).map (idOf h))).flatten := by
  intro L
  induction L with
  | nil => intro st; rfl
  | cons h L ih =>
    intro st
    simp only [buildPop, List.map_append, habitatRows_map_id, ih,
      List.map_cons, List.flatten_cons]

theorem idOf_injective (h : Habitat) : Function.Injective (idOf h) := by
  intro i j e
  simp only [idOf, List.cons.injEq, true_and] at e
  exact natRepr_injective e

theorem habInitial_injective : Function.Injective habInitial := by
  intro h1 h2 e
  cases h1 <;> cases h2 <;> first | rfl | exact absurd e (by decide)

theorem id_blocks_disjoint {h1 h2 : Habitat} (hne : h1 ≠ h2) :
    List.Disjoint ((List.range (habSize h1)).map (idOf h1))
      ((List.range (habSize h2)).map (idOf h2)) := by
  intro a ha1 ha2
  rcases List.mem_map.mp ha1 with ⟨i, _, rfl⟩
  rcases List.mem_map.mp ha2 with ⟨j, _, he⟩
  have hh : habInitial h2 = habInitial h1 := by
    simp only [idOf, List.cons.injEq] at he
    exact he.1
  exact hne (habInitial_injective hh.symm)

theorem id_block_nodup (h : Habitat) :
    ((List.range (habSize h)).map (idOf h)).Nodup :=
  List.Nodup.map (idOf_injective h) (List.nodup_range _)

/-- Claim C10: the generated population has exactly 10000 rows and their
ids (habitat initial, underscore, decimal in-stratum index) are pairwise
distinct, because the four habitat initials are pairwise distinct and the
decimal index renders injectively; so there are 10000 distinct ids. -/
theorem population_ids_unique (z : Nat → Nat → Int) (st : RngState) :
    (get_population z st).1.length = 10000
      ∧ ((get_population z st).1.map (fun x => x.id)).Nodup := by
  refine ⟨get_population_length z st, ?_⟩
  rw [get_population, buildPop_map_id, List.nodup_flatten]
  constructor
  · intro l hl
    rcases List.mem_map.mp hl with ⟨h, _, rfl⟩
    exact id_block_nodup h
  · rw [List.pairwise_map]
    exact List.Pairwise.imp (fun hne => id_blocks_disjoint hne)
      nodup_habitatOrder
